import Mathlib

/-!
Verification of the bronco-browser command bridge and recording/replay
subsystem, as a shallow embedding of the repository source.

The embedding covers:
 - the MCP server side of the bridge (server/index.js): the pending-request
   table, the WebSocket message/close handlers, the 30-second per-request
   timeout, and the sendToExtension entry point;
 - the file-based recording store and the replay engine
   (server/index.js: toFilename, saveRecordingToDisk, replayRecordingFromDisk);
 - the extension background worker (background.js): session toggle,
   tab gating, the in-memory recording buffer, and replayRecording;
 - the content-script selector generator (recorder.js: generateSelector)
   over an explicit DOM tree model.
-/

namespace Bronco

/-! ## Bridge server state (server/index.js)

The server keeps `extensionSocket` (null or the connected socket),
`pendingRequests` (a Map from request id to the resolve/reject callbacks of
the caller promise) and a monotonically increasing `requestId` counter.
We model the Map by the list of its keys, and the delivery of an outcome to
a caller promise by appending to a `settled` log, since each promise can
observe at most the single outcome it is given.  `timers` records the ids
whose 30-second timeout has been armed and has not yet fired. -/

/-- Outcome delivered to the caller promise of one request: the handlers
resolve with the result payload, or reject with a remote error message, the
timeout error, or the disconnect error. -/
inductive Outcome where
  | resolved (payload : Nat)
  | remoteError (msg : String)
  | timeout
  | disconnected
  deriving DecidableEq, Repr

/-- A parsed wire message from the extension socket: keepalive and
extension_ready messages carry no id; a response carries an id, an optional
error string and a result payload (opaque, modelled as a number). -/
inductive WireMsg where
  | keepalive
  | extensionReady
  | response (id : Nat) (error : Option String) (result : Nat)
  deriving DecidableEq, Repr

/-- The mutable module-level state of server/index.js. -/
structure ServerState where
  extensionSocket : Bool
  pending : List Nat
  requestId : Nat
  timers : List Nat
  settled : List (Nat × Outcome)
  deriving DecidableEq, Repr

/-- The outcome a response message produces: `if (message.error)` rejects
with the error, otherwise the promise resolves with the result.  An empty
error string is falsy in JavaScript, so it resolves. -/
def responseOutcome (error : Option String) (result : Nat) : Outcome :=
  match error with
  | some msg => if msg = "" then Outcome.resolved result else Outcome.remoteError msg
  | none => Outcome.resolved result

/-- The socket `message` handler: keepalive and extension_ready return
early; a response whose id is in `pendingRequests` deletes the entry and
settles the caller promise; any other response is dropped.  The Map holds
each key at most once, so deleting the key equals filtering it out. -/
def handleSocketMessage (st : ServerState) (m : WireMsg) : ServerState :=
  match m with
  | WireMsg.keepalive => st
  | WireMsg.extensionReady => st
  | WireMsg.response id error result =>
      if st.pending.contains id then
        { st with
          pending := st.pending.filter (fun x => x != id),
          settled := (id, responseOutcome error result) :: st.settled }
      else st

/-- The socket `close` handler: clears `extensionSocket`, rejects every
pending request with the disconnect error, and clears the table. -/
def handleSocketClose (st : ServerState) : ServerState :=
  { st with
    extensionSocket := false,
    pending := [],
    settled := st.pending.map (fun i => (i, Outcome.disconnected)) ++ st.settled }

/-- The 30-second timeout callback for request `id` firing: the timer is
spent, and the callback deletes and rejects the entry only when the id is
still pending, otherwise it does nothing. -/
def fireTimeout (st : ServerState) (id : Nat) : ServerState :=
  let st' := { st with timers := st.timers.filter (fun x => x != id) }
  if st'.pending.contains id then
    { st' with
      pending := st'.pending.filter (fun x => x != id),
      settled := (id, Outcome.timeout) :: st'.settled }
  else st'

/-- The immediate failure of sendToExtension when no extension socket is
connected. -/
inductive SendErr where
  | notConnected
  deriving DecidableEq, Repr

/-- The synchronous part of sendToExtension: with no connected socket the
promise is rejected at once with the not-connected error and nothing is
registered; otherwise a fresh id is allocated, the resolve/reject pair is
registered in the table, the 30-second timeout is armed, and the request is
sent on the socket. -/
def sendToExtension (st : ServerState) : ServerState × Except SendErr Nat :=
  if st.extensionSocket = false then
    (st, Except.error SendErr.notConnected)
  else
    let id := st.requestId + 1
    ({ st with
        requestId := id,
        pending := id :: st.pending,
        timers := id :: st.timers },
     Except.ok id)

/-- The asynchronous triggers that mutate the server state. -/
inductive ServerEvent where
  | message (m : WireMsg)
  | socketClose
  | timer (id : Nat)
  | send
  deriving DecidableEq, Repr

/-- One server state transition per trigger. -/
def serverStep (st : ServerState) (e : ServerEvent) : ServerState :=
  match e with
  | ServerEvent.message m => handleSocketMessage st m
  | ServerEvent.socketClose => handleSocketClose st
  | ServerEvent.timer id => fireTimeout st id
  | ServerEvent.send => (sendToExtension st).1

/-- Running a sequence of triggers. -/
def serverRun (st : ServerState) : List ServerEvent → ServerState
  | [] => st
  | e :: es => serverRun (serverStep st e) es

/-- Number of table entries for `id`. -/
def pendCount (st : ServerState) (id : Nat) : Nat :=
  (st.pending.filter (fun x => x == id)).length

/-- Number of outcomes delivered to the caller of request `id`. -/
def settleCount (st : ServerState) (id : Nat) : Nat :=
  ((st.settled.filter (fun p => p.1 == id))).length

/-- Invariant of an allocated request id: the id is at most the allocation
counter, and the table entry and the delivered outcome together number at
most one. -/
def OnceInv (st : ServerState) (id : Nat) : Prop :=
  id ≤ st.requestId ∧ pendCount st id + settleCount st id ≤ 1

/-! ## Recorded actions and the replay engine

A recorded action is a JSON object with a `type` tag and the type-specific
fields; absent fields are `Option.none`.  Replay drives the executor through
sendToExtension (server side) or through the background helper functions
(extension side); we abstract the round trip of one underlying call as an
oracle from the method name and the action to either a thrown error message
or an opaque resolved payload. -/

/-- A recorded action object. -/
structure Action where
  type : String
  selector : Option String := none
  url : Option String := none
  value : Option String := none
  key : Option String := none
  fileName : Option String := none
  fileSize : Option Nat := none
  filePath : Option String := none
  mimeType : Option String := none
  timestamp : Nat := 0
  deriving DecidableEq, Repr

/-- The value stored in a replay result entry: the opaque payload an
underlying call resolved with, or the object with a `skipped` flag and a
reason that the skip branches build. -/
inductive RValue where
  | ext (payload : Nat)
  | skipped (reason : String)
  deriving DecidableEq, Repr

/-- One entry of the replay `results` sequence. -/
structure ReplayEntry where
  action : String
  selector : Option String
  success : Bool
  result : Option RValue
  error : Option String
  deriving DecidableEq, Repr

/-- The entry pushed when the switch body completes without throwing. -/
def okEntry (a : Action) (v : RValue) : ReplayEntry :=
  { action := a.type, selector := a.selector, success := true,
    result := some v, error := none }

/-- The entry pushed by the catch block when the switch body throws. -/
def errEntry (a : Action) (msg : String) : ReplayEntry :=
  { action := a.type, selector := a.selector, success := false,
    result := none, error := some msg }

/-- Timeline events of one replay run: an underlying call on behalf of an
action, or an awaited settle delay. -/
inductive Ev where
  | call (method : String) (a : Action)
  | sleep (ms : Nat)
  deriving DecidableEq, Repr

/-- An oracle for the underlying round trip of one call: given the method
name and the action it is issued for, it either throws an error message or
resolves with an opaque payload. -/
def SendOracle : Type := String → Action → Except String Nat

/-- Whether the upload branch of replayRecordingFromDisk finds a usable
file: `action.filePath && existsSync(action.filePath)` (an empty string is
falsy). -/
def uploadPathUsable (fileExists : String → Bool) (a : Action) : Bool :=
  match a.filePath with
  | some p => p != "" && fileExists p
  | none => false

/-- The skip reason of the server upload branch; an absent fileName prints
as undefined in the template string. -/
def uploadSkipReason (a : Action) : String :=
  "File not found. Add \"filePath\" to the recording: " ++ a.fileName.getD "undefined"

/-- One iteration of the replayRecordingFromDisk loop body (server side):
the switch on `action.type`, returning the timeline it produces and the
entry pushed onto `results`.  Each recognized branch issues one call and,
when that call resolves, awaits the per-type settle delay; the catch block
skips the delay.  The upload branch only issues the call when a usable file
path is recorded, and otherwise builds a skipped result without calling;
the default branch builds a skipped result. -/
def replayActionServer (send : SendOracle) (fileExists : String → Bool)
    (a : Action) : List Ev × ReplayEntry :=
  match a.type with
  | "navigate" =>
      match send "navigate" a with
      | Except.ok v => ([Ev.call "navigate" a, Ev.sleep 1000], okEntry a (RValue.ext v))
      | Except.error m => ([Ev.call "navigate" a], errEntry a m)
  | "click" =>
      match send "click" a with
      | Except.ok v => ([Ev.call "click" a, Ev.sleep 300], okEntry a (RValue.ext v))
      | Except.error m => ([Ev.call "click" a], errEntry a m)
  | "type" =>
      match send "type" a with
      | Except.ok v => ([Ev.call "type" a, Ev.sleep 100], okEntry a (RValue.ext v))
      | Except.error m => ([Ev.call "type" a], errEntry a m)
  | "select" =>
      match send "select_option" a with
      | Except.ok v => ([Ev.call "select_option" a, Ev.sleep 100], okEntry a (RValue.ext v))
      | Except.error m => ([Ev.call "select_option" a], errEntry a m)
  | "keypress" =>
      match send "press_key" a with
      | Except.ok v => ([Ev.call "press_key" a, Ev.sleep 100], okEntry a (RValue.ext v))
      | Except.error m => ([Ev.call "press_key" a], errEntry a m)
  | "upload" =>
      if uploadPathUsable fileExists a then
        match send "upload_file" a with
        | Except.ok v => ([Ev.call "upload_file" a], okEntry a (RValue.ext v))
        | Except.error m => ([Ev.call "upload_file" a], errEntry a m)
      else
        ([], okEntry a (RValue.skipped (uploadSkipReason a)))
  | t => ([], okEntry a (RValue.skipped ("Unknown action type: " ++ t)))

/-- One iteration of the extension-side replayRecording loop body: as on
the server, except the upload branch always produces the skipped result
without issuing a call. -/
def replayActionExt (send : SendOracle) (a : Action) : List Ev × ReplayEntry :=
  match a.type with
  | "navigate" =>
      match send "navigate" a with
      | Except.ok v => ([Ev.call "navigate" a, Ev.sleep 1000], okEntry a (RValue.ext v))
      | Except.error m => ([Ev.call "navigate" a], errEntry a m)
  | "click" =>
      match send "click" a with
      | Except.ok v => ([Ev.call "click" a, Ev.sleep 300], okEntry a (RValue.ext v))
      | Except.error m => ([Ev.call "click" a], errEntry a m)
  | "type" =>
      match send "type" a with
      | Except.ok v => ([Ev.call "type" a, Ev.sleep 100], okEntry a (RValue.ext v))
      | Except.error m => ([Ev.call "type" a], errEntry a m)
  | "select" =>
      match send "select_option" a with
      | Except.ok v => ([Ev.call "select_option" a, Ev.sleep 100], okEntry a (RValue.ext v))
      | Except.error m => ([Ev.call "select_option" a], errEntry a m)
  | "keypress" =>
      match send "press_key" a with
      | Except.ok v => ([Ev.call "press_key" a, Ev.sleep 100], okEntry a (RValue.ext v))
      | Except.error m => ([Ev.call "press_key" a], errEntry a m)
  | "upload" =>
      ([], okEntry a (RValue.skipped "File uploads require file path parameter"))
  | t => ([], okEntry a (RValue.skipped ("Unknown action type: " ++ t)))

/-- The replay loop: actions strictly in order, one entry pushed per action
(the loop body never aborts the run), the timelines concatenated in order. -/
def replayList (step : Action → List Ev × ReplayEntry) :
    List Action → List Ev × List ReplayEntry
  | [] => ([], [])
  | a :: rest =>
      let r := step a
      let rs := replayList step rest
      (r.1 ++ rs.1, r.2 :: rs.2)

/-- The method to which the replay switch forwards each recognized,
unconditionally-called action type. -/
def methodOf : String → Option String
  | "navigate" => some "navigate"
  | "click" => some "click"
  | "type" => some "type"
  | "select" => some "select_option"
  | "keypress" => some "press_key"
  | _ => none

/-! ## The recording store -/

/-- A persisted recording. -/
structure Recording where
  name : String
  actions : List Action
  createdAt : Nat
  url : String
  deriving DecidableEq, Repr

/-- Safe characters of the filename transform: the class a-zA-Z0-9-_ kept
by the replace regex. -/
def isSafeChar (c : Char) : Bool :=
  c.isAlpha || c.isDigit || c = '-' || c = '_'

/-- Every character outside a-zA-Z0-9-_ replaced by an underscore. -/
def sanitizeName (name : String) : String :=
  String.mk (name.data.map (fun c => if isSafeChar c then c else '_'))

/-- toFilename: the sanitized name with the .json extension appended. -/
def toFilename (name : String) : String :=
  sanitizeName name ++ ".json"

/-- A key-value store (the recordings directory keyed by filename, or the
chrome.storage recordings object keyed by recording name). -/
abbrev Store : Type := List (String × Recording)

/-- Reading the value under a key. -/
def lookupKey (store : Store) (k : String) : Option Recording :=
  (store.find? (fun p => p.1 == k)).map (fun p => p.2)

/-- Overwriting or creating the value under a key (whole-file overwrite by
writeFileSync, or assignment into the storage object). -/
def setKey (store : Store) (k : String) (v : Recording) : Store :=
  if store.any (fun p => p.1 == k) then
    store.map (fun p => if p.1 == k then (k, v) else p)
  else
    (k, v) :: store

/-- Result object of saveRecordingToDisk. -/
structure SaveDiskResult where
  success : Bool
  name : String
  actionCount : Nat
  deriving DecidableEq, Repr

/-- saveRecordingToDisk: builds the data object (name, actions, createdAt
from the clock, url from the recording object or the first action) and
overwrites the file named toFilename(name). -/
def saveRecordingToDisk (store : Store) (now : Nat) (name : String)
    (recActions : List Action) (recUrl : Option String) :
    Store × SaveDiskResult :=
  let fallbackUrl := ((recActions.head?.bind (fun a => a.url)).getD "")
  let url := match recUrl with
    | some u => if u = "" then fallbackUrl else u
    | none => fallbackUrl
  let data : Recording :=
    { name := name, actions := recActions, createdAt := now, url := url }
  (setKey store (toFilename name) data,
   { success := true, name := name, actionCount := recActions.length })

/-- Output object of a replay run. -/
structure ReplayOutput where
  success : Bool
  recording : String
  actionsExecuted : Nat
  results : List ReplayEntry
  deriving DecidableEq, Repr

/-- getRecordingFromDisk: reads the file named toFilename(name), throwing
when it does not exist. -/
def getRecordingFromDisk (store : Store) (name : String) : Except String Recording :=
  match lookupKey store (toFilename name) with
  | none => Except.error ("Recording \"" ++ name ++ "\" not found")
  | some r => Except.ok r

/-- replayRecordingFromDisk: loads the recording, runs the replay loop over
its actions, and returns the summary object; the first component is the
timeline of calls and settle delays the run performs. -/
def replayRecordingFromDisk (store : Store) (send : SendOracle)
    (fileExists : String → Bool) (name : String) :
    Except String (List Ev × ReplayOutput) :=
  match getRecordingFromDisk store name with
  | Except.error e => Except.error e
  | Except.ok r =>
      let run := replayList (replayActionServer send fileExists) r.actions
      Except.ok (run.1,
        { success := true, recording := name,
          actionsExecuted := run.2.length, results := run.2 })

/-- getRecordingByName (extension side): the recordings object is keyed by
the recording name itself. -/
def getRecordingByName (recordings : Store) (name : String) : Except String Recording :=
  match lookupKey recordings name with
  | none => Except.error ("Recording \"" ++ name ++ "\" not found")
  | some r => Except.ok r

/-- replayRecording (extension side): loads the recording from
chrome.storage and runs the replay loop with the background helpers. -/
def replayRecording (recordings : Store) (send : SendOracle) (name : String) :
    Except String (List Ev × ReplayOutput) :=
  match getRecordingByName recordings name with
  | Except.error e => Except.error e
  | Except.ok r =>
      let run := replayList (replayActionExt send) r.actions
      Except.ok (run.1,
        { success := true, recording := name,
          actionsExecuted := run.2.length, results := run.2 })

/-! ## Extension background worker (background.js)

The session flag gates listing and targeting; `connectedTabId` is the
single targeted surface.  Operations that need a target go through
requireConnectedTab first and only then issue the chrome call, which we
leave opaque. -/

/-- A browser tab as seen through chrome.tabs. -/
structure Tab where
  id : Nat
  title : String
  url : String
  active : Bool
  deriving DecidableEq, Repr

/-- The background-worker control state. -/
structure BgState where
  sessionEnabled : Bool
  connectedTabId : Option Nat
  deriving DecidableEq, Repr

/-- toggleSession: flips the flag and, when the session is being turned
off, clears the connected tab. -/
def toggleSession (st : BgState) : BgState × Bool :=
  let enabled := !st.sessionEnabled
  ({ st with
      sessionEnabled := enabled,
      connectedTabId := if enabled then st.connectedTabId else none },
   enabled)

/-- requireConnectedTab: throws when no tab is connected. -/
def requireConnectedTab (st : BgState) : Except String Nat :=
  match st.connectedTabId with
  | none => Except.error "No tab connected. Use connect_tab first."
  | some t => Except.ok t

/-- A tab entry of the listTabs result. -/
structure TabInfo where
  id : Nat
  title : String
  url : String
  active : Bool
  connected : Bool
  deriving DecidableEq, Repr

/-- listTabs: with the session disabled it returns the empty list without
throwing; otherwise it maps the chrome tab query. -/
def listTabs (st : BgState) (tabs : List Tab) : Except String (List TabInfo) :=
  if !st.sessionEnabled then
    Except.ok []
  else
    Except.ok (tabs.map (fun t =>
      { id := t.id, title := t.title, url := t.url, active := t.active,
        connected := st.connectedTabId == some t.id }))

/-- Result object of connectTab. -/
structure ConnectResult where
  success : Bool
  tabId : Nat
  title : String
  url : String
  deriving DecidableEq, Repr

/-- connectTab: throws the control-disabled error when the session is off,
throws when the tab does not exist, and otherwise records the tab as the
connected one. -/
def connectTab (st : BgState) (tabs : List Tab) (tabId : Nat) :
    BgState × Except String ConnectResult :=
  if !st.sessionEnabled then
    (st, Except.error "Browser control is disabled. Enable it via the extension icon.")
  else
    match tabs.find? (fun t => t.id == tabId) with
    | none => (st, Except.error ("Tab " ++ toString tabId ++ " not found"))
    | some tab =>
        ({ st with connectedTabId := some tabId },
         Except.ok { success := true, tabId := tabId, title := tab.title, url := tab.url })

/-- disconnectTab: clears the connected tab. -/
def disconnectTab (st : BgState) : BgState × Option Nat :=
  ({ st with connectedTabId := none }, st.connectedTabId)

/-- navigate: gated on a connected tab; the chrome.tabs.update call that
follows the gate is external and opaque, so the embedding returns the tab
id the operation targets. -/
def navigate (st : BgState) (url : String) : Except String Nat :=
  requireConnectedTab st

/-- click: gated on a connected tab; the injected script is external. -/
def click (st : BgState) (selector : String) : Except String Nat :=
  requireConnectedTab st

/-- type: gated on a connected tab; the injected script is external. -/
def typeText (st : BgState) (selector text : String) : Except String Nat :=
  requireConnectedTab st

/-- The events of background.js that can touch the control state: the
popup toggle, the connect/disconnect/tab_close commands, the
chrome.tabs.onRemoved listener, and every other command (none of which
assigns sessionEnabled or connectedTabId). -/
inductive BgEvent where
  | toggle
  | connect (tabId : Nat)
  | disconnect
  | tabClose (tabId : Option Nat)
  | tabRemoved (tabId : Nat)
  | otherCommand
  deriving DecidableEq, Repr

/-- One background control-state transition per event. -/
def bgStep (tabs : List Tab) (st : BgState) (e : BgEvent) : BgState :=
  match e with
  | BgEvent.toggle => (toggleSession st).1
  | BgEvent.connect tabId => (connectTab st tabs tabId).1
  | BgEvent.disconnect => (disconnectTab st).1
  | BgEvent.tabClose tid =>
      match (match tid with | some t => some t | none => st.connectedTabId) with
      | none => st
      | some t =>
          if st.connectedTabId == some t then { st with connectedTabId := none } else st
  | BgEvent.tabRemoved tabId =>
      if st.connectedTabId == some tabId then { st with connectedTabId := none } else st
  | BgEvent.otherCommand => st

/-! ## The in-memory recording buffer (background.js) -/

/-- The background recording state: the buffer of captured actions, the
saved flag, the tab being recorded, and the chrome.storage recordings
object. -/
structure RecState where
  isRecording : Bool
  currentRecording : List Action
  recordingTabId : Option Nat
  lastSaved : Bool
  recordings : Store
  deriving DecidableEq, Repr

/-- Result object of saveRecording. -/
structure SaveResult where
  success : Bool
  name : String
  actionCount : Nat
  deriving DecidableEq, Repr

/-- saveRecording: throws when the buffer is empty, before anything is
read or written; otherwise stores the buffer under the name (overwriting
any recording with that name), clears the buffer, and marks it saved. -/
def saveRecording (st : RecState) (now : Nat) (name : String) :
    RecState × Except String SaveResult :=
  if st.currentRecording.length = 0 then
    (st, Except.error "No actions to save")
  else
    let data : Recording :=
      { name := name, actions := st.currentRecording, createdAt := now,
        url := (st.currentRecording.head?.bind (fun a => a.url)).getD "" }
    let recordings := setKey st.recordings name data
    ({ st with
        recordings := recordings,
        currentRecording := [],
        lastSaved := true,
        recordingTabId := none },
     Except.ok { success := true, name := name, actionCount := data.actions.length })

/-! ## DOM model and the selector generator (recorder.js)

A document is the body element with its tree of descendants.  An element is
referenced by its child-index path from the body (the empty path is the
body itself), which plays the role of object identity.  The selector
strings the generator builds fall into four query shapes; uniqueness is
checked by counting the elements of the document that a query matches,
which is the CSS matching semantics of those shapes.  CSS.escape only
rewrites the escaped value inside the selector string, never which element
an attribute value belongs to, so it is a parameter of the generator. -/

/-- A DOM element: tag name, id attribute, class attribute, the remaining
attributes, its own text, and the child elements in order. -/
inductive Dom where
  | node (tag : String) (idAttr : String) (className : String)
      (attrs : List (String × String)) (text : String) (children : List Dom)

/-- The tag name of an element. -/
def Dom.tagName : Dom → String
  | Dom.node t _ _ _ _ _ => t

/-- The id of an element (the empty string when absent, as in the DOM). -/
def Dom.idOf : Dom → String
  | Dom.node _ i _ _ _ _ => i

/-- The className string of an element. -/
def Dom.classOf : Dom → String
  | Dom.node _ _ c _ _ _ => c

/-- getAttribute: the attribute value, or none when absent. -/
def Dom.getAttr (d : Dom) (name : String) : Option String :=
  match d with
  | Dom.node _ _ _ attrs _ _ => (attrs.find? (fun p => p.1 == name)).map (fun p => p.2)

/-- The child elements of an element. -/
def Dom.childrenOf : Dom → List Dom
  | Dom.node _ _ _ _ _ ch => ch

/-- toLowerCase: each character lowercased. -/
def lowerStr (s : String) : String :=
  String.mk (s.data.map Char.toLower)

/-- Splitting on whitespace runs, dropping empty pieces, as the split
regex on whitespace does. -/
def splitWs (s : String) : List String :=
  (s.split (fun c => c.isWhitespace)).filter (fun c => c != "")

/-- textContent: the concatenated text of the element and its descendants. -/
def Dom.textContent : Dom → String
  | Dom.node _ _ _ _ text ch =>
      text ++ String.join (ch.attach.map (fun c => Dom.textContent c.1))
decreasing_by
  simp_wf
  have h := List.sizeOf_lt_of_mem c.2
  omega

/-- All elements of a subtree, the root first. -/
def Dom.allNodes : Dom → List Dom
  | Dom.node t i c a x ch =>
      Dom.node t i c a x ch :: (ch.attach.map (fun d => Dom.allNodes d.1)).flatten
decreasing_by
  simp_wf
  have h := List.sizeOf_lt_of_mem d.2
  omega

/-- The query shapes of the selector strings the generator builds. -/
inductive Query where
  | byId (v : String)
  | byAttr (name v : String)
  | byClasses (cs : List String)
  | byTagAttr (tag name v : String)
  deriving DecidableEq, Repr

/-- Whether one element matches a query: an id selector matches on the id
attribute, an attribute selector on exact attribute value, a class
selector on every listed class being among the element class tokens, and a
tag-qualified attribute selector additionally on the tag name
(case-insensitively, as CSS matches tags). -/
def matchesQuery (q : Query) (d : Dom) : Bool :=
  match q with
  | Query.byId v => d.idOf == v
  | Query.byAttr name v => d.getAttr name == some v
  | Query.byClasses cs => cs.all (fun c => (splitWs d.classOf).contains c)
  | Query.byTagAttr tag name v =>
      lowerStr d.tagName == tag && d.getAttr name == some v

/-- document.querySelectorAll(...).length for one of the query shapes. -/
def countQ (doc : Dom) (q : Query) : Nat :=
  (doc.allNodes.filter (matchesQuery q)).length

/-- Looking up the element a path references. -/
def getNode (d : Dom) : List Nat → Option Dom
  | [] => some d
  | i :: p =>
      match d with
      | Dom.node _ _ _ _ _ ch =>
          match ch[i]? with
          | some c => getNode c p
          | none => none

/-- Whether a string starts with a decimal digit (the match against a
leading-digit regex). -/
def startsDigit (s : String) : Bool :=
  match s.data with
  | [] => false
  | c :: _ => c.isDigit

/-- Strategy 1: the id, when present, not generated-looking (leading digit
or colon), and unique in the document. -/
def strat1 (esc : String → String) (doc : Dom) (el : Dom) : Option String :=
  if el.idOf != "" && !startsDigit el.idOf && !el.idOf.contains ':' then
    if countQ doc (Query.byId el.idOf) = 1 then
      some ("#" ++ esc el.idOf)
    else none
  else none

/-- The test-attribute conventions, in priority order. -/
def testAttrs : List String :=
  ["data-testid", "data-cy", "data-test", "data-automation-id"]

/-- Strategy 2: the first test attribute with a truthy value that is
unique in the document. -/
def strat2 (esc : String → String) (doc : Dom) (el : Dom) : Option String :=
  testAttrs.findSome? (fun attr =>
    match el.getAttr attr with
    | some v =>
        if v != "" && countQ doc (Query.byAttr attr v) = 1 then
          some ("[" ++ attr ++ "=\"" ++ esc v ++ "\"]")
        else none
    | none => none)

/-- The class filter: non-empty, not a state-prefixed class, not starting
with a digit. -/
def classFilterOk (c : String) : Bool :=
  c != ""
    && !(c.startsWith "hover" || c.startsWith "active" || c.startsWith "focus"
          || c.startsWith "visited" || c.startsWith "disabled")
    && !startsDigit c

/-- Strategy 3: a single filtered class unique in the document, or else
the first three filtered classes when that combination is unique. -/
def strat3 (esc : String → String) (doc : Dom) (el : Dom) : Option String :=
  if el.classOf != "" then
    let classes := (splitWs el.classOf).filter classFilterOk
    if classes.length > 0 then
      match classes.findSome? (fun c =>
        if countQ doc (Query.byClasses [c]) = 1 then some ("." ++ esc c) else none) with
      | some s => some s
      | none =>
          let combo := classes.take 3
          if countQ doc (Query.byClasses combo) = 1 then
            some (String.join (combo.map (fun c => "." ++ esc c)))
          else none
    else none
  else none

/-- The placeholder fallback of the input branch of strategy 4. -/
def strat4placeholder (esc : String → String) (doc : Dom) (el : Dom) : Option String :=
  match el.getAttr "placeholder" with
  | some p =>
      if p != "" && countQ doc (Query.byTagAttr "input" "placeholder" p) = 1 then
        some ("input[placeholder=\"" ++ esc p ++ "\"]")
      else none
  | none => none

/-- Strategy 4: for inputs, the name then the placeholder, tag-qualified;
for buttons and links with text, the aria-label, tag-qualified; each only
when unique in the document. -/
def strat4 (esc : String → String) (doc : Dom) (el : Dom) : Option String :=
  let tag := lowerStr el.tagName
  if tag = "input" then
    match el.getAttr "name" with
    | some n =>
        if n != "" && countQ doc (Query.byTagAttr "input" "name" n) = 1 then
          some ("input[name=\"" ++ esc n ++ "\"]")
        else strat4placeholder esc doc el
    | none => strat4placeholder esc doc el
  else if tag = "button" || tag = "a" then
    let text := (el.textContent.trim).take 50
    if text != "" then
      match el.getAttr "aria-label" with
      | some al =>
          if al != "" && countQ doc (Query.byTagAttr tag "aria-label" al) = 1 then
            some (tag ++ "[aria-label=\"" ++ esc al ++ "\"]")
          else none
      | none => none
    else none
  else none

/-- Array.prototype.join with a separator. -/
def joinSep (sep : String) : List String → String
  | [] => ""
  | [s] => s
  | s :: rest => s ++ sep ++ joinSep sep (rest)

/-- The strategy-5 walk, collected from the target upward (the source
unshifts, so the final path is this list reversed).  The loop stops at the
body (the empty path), after five components, or early with an id
component; each component is the lowercased tag, with an nth-child suffix
when several siblings share the tag. -/
def pathCompsUp (esc : String → String) (doc : Dom) :
    Nat → List Nat → List String
  | 0, _ => []
  | _, [] => []
  | fuel + 1, q =>
      match getNode doc q with
      | none => []
      | some cur =>
          if cur.idOf != "" && !startsDigit cur.idOf then
            ["#" ++ esc cur.idOf]
          else
            let parentPath := q.dropLast
            let comp :=
              match getNode doc parentPath with
              | some par =>
                  let sibs := par.childrenOf.filter (fun s => s.tagName == cur.tagName)
                  if sibs.length > 1 then
                    let before := par.childrenOf.take (q.getLastD 0)
                    let index := (before.filter (fun s => s.tagName == cur.tagName)).length + 1
                    lowerStr cur.tagName ++ ":nth-child(" ++ toString index ++ ")"
                  else lowerStr cur.tagName
              | none => lowerStr cur.tagName
            comp :: pathCompsUp esc doc fuel parentPath

/-- Strategy 5: the positional path, joined outermost-first. -/
def strat5 (esc : String → String) (doc : Dom) (elPath : List Nat) : String :=
  joinSep " > " (pathCompsUp esc doc 5 elPath).reverse

/-- generateSelector: the five strategies in order, first success wins.
The element is referenced by its path from the body; a path that
references no element yields the empty string (the source is never called
on a detached element, and the theorems assume a valid reference). -/
def generateSelector (esc : String → String) (doc : Dom) (elPath : List Nat) : String :=
  match getNode doc elPath with
  | none => ""
  | some el =>
      match strat1 esc doc el with
      | some s => s
      | none =>
          match strat2 esc doc el with
          | some s => s
          | none =>
              match strat3 esc doc el with
              | some s => s
              | none =>
                  match strat4 esc doc el with
                  | some s => s
                  | none => strat5 esc doc elPath

/-- Well-formedness of a document for the selector claims: every element
has a non-empty tag name, as in the DOM. -/
def TagsNonEmpty (doc : Dom) : Prop :=
  ∀ d ∈ doc.allNodes, d.tagName ≠ ""

/-! ## Concrete example inputs used by the witnesses -/

/-- A three-action recording, as captured by the scenario of the spec. -/
def c2Rec : Recording :=
  { name := "t1",
    actions := [{ type := "navigate", url := some "https://x" },
      { type := "click", selector := some "#go" },
      { type := "type", selector := some "#q", value := some "hello" }],
    createdAt := 0,
    url := "https://x" }

/-- A recordings directory holding that recording. -/
def c2Store : Store := [(toFilename "t1", c2Rec)]

/-- An oracle that fails the click call and resolves everything else. -/
def c2Send : SendOracle :=
  fun m _ => if m == "click" then Except.error "Element not found: #go" else Except.ok 0

/-- A recording already stored under the name t1. -/
def c7Stored : Recording :=
  { name := "t1", actions := [{ type := "navigate" }], createdAt := 0, url := "" }

/-- A recording state with an empty buffer and a stored recording. -/
def c7State : RecState :=
  { isRecording := false,
    currentRecording := [],
    recordingTabId := none,
    lastSaved := true,
    recordings := [("t1", c7Stored)] }

/-- A background control state with the session on and tab 5 targeted. -/
def c8State : BgState :=
  { sessionEnabled := true, connectedTabId := some 5 }

/-- A concrete browser tab. -/
def c10Tab : Tab :=
  { id := 1, title := "Example", url := "https://example.com", active := true }

/-- A bare document: a body with no id, class or attributes, holding one
div. -/
def c5Doc : Dom :=
  Dom.node "BODY" "" "" [] "" [Dom.node "DIV" "" "" [] "hi" []]

/-! ## Helper lemmas -/

theorem filter_eq_after_delete (l : List Nat) (i j : Nat) :
    ((l.filter (fun x => x != j)).filter (fun x => x == i)).length =
      if i = j then 0 else (l.filter (fun x => x == i)).length := by
  rw [List.filter_filter]
  by_cases hij : i = j
  · rw [if_pos hij]
    have hnone : ∀ a ∈ l, ¬ ((a == i) && (a != j)) = true := by
      intro a _
      by_cases ha : a = i <;> simp [ha, hij]
    simp [List.filter_eq_nil_iff.mpr hnone]
  · rw [if_neg hij]
    have hsame : ∀ a ∈ l, ((a == i) && (a != j)) = (a == i) := by
      intro a _
      by_cases ha : a = i <;> simp [ha] <;> omega
    rw [List.filter_congr hsame]

theorem filter_pos_of_contains (l : List Nat) (i : Nat)
    (h : l.contains i = true) : 0 < (l.filter (fun x => x == i)).length := by
  have hm : i ∈ l := by
    rcases List.contains_iff_exists_mem_beq.mp h with ⟨b, hb, hbeq⟩
    have : i = b := by simpa using hbeq
    rwa [this]
  have hmem : i ∈ l.filter (fun x => x == i) := List.mem_filter.mpr ⟨hm, by simp⟩
  exact List.length_pos.mpr (List.ne_nil_of_mem hmem)

theorem pair_map_filter_length (l : List Nat) (o : Outcome) (i : Nat) :
    ((l.map (fun x => (x, o))).filter (fun p => p.1 == i)).length =
      (l.filter (fun x => x == i)).length := by
  induction l with
  | nil => simp
  | cons a as ih => by_cases hai : a = i <;> simp [hai, ih]

/-- Deleting a pending entry and appending its outcome preserves the
at-most-one sum. -/
theorem settle_delete_sum (pending : List Nat) (settled : List (Nat × Outcome))
    (i j : Nat) (o : Outcome) (hc : pending.contains j = true)
    (hsum : (pending.filter (fun x => x == i)).length
      + (settled.filter (fun p => p.1 == i)).length ≤ 1) :
    ((pending.filter (fun x => x != j)).filter (fun x => x == i)).length
      + (((j, o) :: settled).filter (fun p => p.1 == i)).length ≤ 1 := by
  have hdel := filter_eq_after_delete pending i j
  by_cases hij : i = j
  · rw [hdel, if_pos hij]
    have hpos : 0 < (pending.filter (fun x => x == i)).length := by
      rw [hij]; exact filter_pos_of_contains pending j hc
    have hbeq : (((j, o) : Nat × Outcome).1 == i) = true := by simp [hij]
    simp only [List.filter_cons, hbeq, if_true, List.length_cons]
    omega
  · rw [hdel, if_neg hij]
    have hbeq : (((j, o) : Nat × Outcome).1 == i) = false := by
      simp only [beq_eq_false_iff_ne, ne_eq]
      omega
    simp only [List.filter_cons, hbeq, Bool.false_eq_true, if_false]
    exact hsum

/-- Each server trigger preserves the allocated-request invariant. -/
theorem onceInv_step (st : ServerState) (e : ServerEvent) (i : Nat)
    (h : OnceInv st i) : OnceInv (serverStep st e) i := by
  obtain ⟨hle, hsum⟩ := h
  cases e with
  | message m =>
      cases m with
      | keepalive => exact ⟨hle, hsum⟩
      | extensionReady => exact ⟨hle, hsum⟩
      | response j err res =>
          simp only [serverStep, handleSocketMessage]
          by_cases hc : st.pending.contains j = true
          · simp only [hc, if_true]
            exact ⟨hle, settle_delete_sum st.pending st.settled i j _ hc hsum⟩
          · simp only [Bool.not_eq_true] at hc
            simp only [hc, Bool.false_eq_true, if_false]
            exact ⟨hle, hsum⟩
  | socketClose =>
      refine ⟨hle, ?_⟩
      simp only [pendCount, settleCount, serverStep, handleSocketClose] at hsum ⊢
      simp only [List.filter_append, List.length_append, List.filter_nil,
        List.length_nil, pair_map_filter_length]
      omega
  | timer j =>
      simp only [serverStep, fireTimeout]
      by_cases hc : st.pending.contains j = true
      · simp only [hc, if_true]
        exact ⟨hle, settle_delete_sum st.pending st.settled i j _ hc hsum⟩
      · simp only [Bool.not_eq_true] at hc
        simp only [hc, Bool.false_eq_true, if_false]
        exact ⟨hle, hsum⟩
  | send =>
      simp only [serverStep, sendToExtension]
      by_cases hsock : st.extensionSocket = false
      · simp only [hsock, if_pos rfl]
        exact ⟨hle, hsum⟩
      · rw [if_neg hsock]
        have hbeq : ((st.requestId + 1 : Nat) == i) = false := by
          simp only [beq_eq_false_iff_ne, ne_eq]
          omega
        refine ⟨?_, ?_⟩
        · show i ≤ st.requestId + 1
          omega
        · show (((st.requestId + 1) :: st.pending).filter (fun x => x == i)).length
            + (st.settled.filter (fun p => p.1 == i)).length ≤ 1
          simp only [List.filter_cons, hbeq, Bool.false_eq_true, if_false]
          exact hsum

/-- The invariant carries over any sequence of triggers. -/
theorem onceInv_run (i : Nat) (es : List ServerEvent) (st : ServerState)
    (h : OnceInv st i) : OnceInv (serverRun st es) i := by
  induction es generalizing st with
  | nil => exact h
  | cons e es ih => exact ih (serverStep st e) (onceInv_step st e i h)

/-! ## Claim theorems -/

/-- C1: the pending-request table settles each registered request id
exactly once.  A matching response removes the entry and settles the
caller; a response whose id has no entry is dropped with no effect; the
timeout removes the entry and rejects with the timeout error only when the
entry is still present, and otherwise leaves the table and the delivered
outcomes untouched; transport loss rejects every still-pending entry with
the disconnect error and clears the table; and under the allocated-request
invariant, any sequence of responses, timer firings, transport losses and
new sends delivers at most one outcome for the id. -/
theorem pending_table_settles_once (st : ServerState) (i : Nat)
    (err : Option String) (res : Nat) :
    (st.pending.contains i = true →
      (handleSocketMessage st (WireMsg.response i err res)).pending
          = st.pending.filter (fun x => x != i)
        ∧ (handleSocketMessage st (WireMsg.response i err res)).settled
          = (i, responseOutcome err res) :: st.settled)
  ∧ (st.pending.contains i = false →
      handleSocketMessage st (WireMsg.response i err res) = st)
  ∧ (st.pending.contains i = true →
      (fireTimeout st i).pending = st.pending.filter (fun x => x != i)
        ∧ (fireTimeout st i).settled = (i, Outcome.timeout) :: st.settled)
  ∧ (st.pending.contains i = false →
      (fireTimeout st i).pending = st.pending
        ∧ (fireTimeout st i).settled = st.settled)
  ∧ (handleSocketClose st).pending = []
  ∧ (handleSocketClose st).settled
      = st.pending.map (fun x => (x, Outcome.disconnected)) ++ st.settled
  ∧ (∀ es : List ServerEvent, OnceInv st i → settleCount (serverRun st es) i ≤ 1) := by
  refine ⟨?_, ?_, ?_, ?_, ?_, ?_, ?_⟩
  · intro hc
    have hm : i ∈ st.pending := by simpa using hc
    simp [handleSocketMessage, hm]
  · intro hc
    have hm : i ∉ st.pending := by simpa using hc
    simp [handleSocketMessage, hm]
  · intro hc
    have hm : i ∈ st.pending := by simpa using hc
    simp [fireTimeout, hm]
  · intro hc
    have hm : i ∉ st.pending := by simpa using hc
    simp [fireTimeout, hm]
  · simp [handleSocketClose]
  · simp [handleSocketClose]
  · intro es hinv
    have h := (onceInv_run i es st hinv).2
    omega

/-- Witness for C1: a state with request 1 pending, hit by a response, a
late timer firing and a transport loss, delivers at most one outcome. -/
theorem pending_table_settles_once_witness :
    settleCount (serverRun
      { extensionSocket := true, pending := [1], requestId := 1,
        timers := [1], settled := [] }
      [ServerEvent.message (WireMsg.response 1 none 7), ServerEvent.timer 1,
        ServerEvent.socketClose]) 1 ≤ 1 :=
  (pending_table_settles_once
      { extensionSocket := true, pending := [1], requestId := 1,
        timers := [1], settled := [] } 1 none 7).2.2.2.2.2.2
    _ ⟨by decide, by decide⟩

/-- C3: send with no connected extension socket fails immediately with the
not-connected rejection, registers nothing in the pending table, arms no
timer, and leaves the server state untouched; and a timeout firing can
only ever settle an id that has a pending entry, so such a call can never
be failed with the timeout error. -/
theorem send_while_disconnected (st : ServerState)
    (h : st.extensionSocket = false) :
    (sendToExtension st).2 = Except.error SendErr.notConnected
  ∧ (sendToExtension st).1 = st
  ∧ (∀ st' i, st'.pending.contains i = false →
      (fireTimeout st' i).pending = st'.pending
        ∧ (fireTimeout st' i).settled = st'.settled) := by
  refine ⟨?_, ?_, ?_⟩
  · simp [sendToExtension, h]
  · simp [sendToExtension, h]
  · intro st' i hc
    have hm : i ∉ st'.pending := by simpa using hc
    simp [fireTimeout, hm]

/-- Witness for C3 at the disconnected initial state of the server. -/
theorem send_while_disconnected_witness :
    (sendToExtension
      { extensionSocket := false, pending := [], requestId := 0,
        timers := [], settled := [] }).2 = Except.error SendErr.notConnected :=
  (send_while_disconnected _ rfl).1

/-- The entries of a replay run are the loop body applied to each action
in order. -/
theorem replayList_results (step : Action → List Ev × ReplayEntry)
    (l : List Action) :
    (replayList step l).2 = l.map (fun a => (step a).2) := by
  induction l with
  | nil => rfl
  | cons a rest ih => simp [replayList, ih]

/-- The timeline of a replay run is the concatenation of the per-action
timelines in order. -/
theorem replayList_trace (step : Action → List Ev × ReplayEntry)
    (a : Action) (rest : List Action) :
    (replayList step (a :: rest)).1 = (step a).1 ++ (replayList step rest).1 := rfl

/-- A loop body whose underlying call throws pushes the failure entry. -/
theorem replayActionServer_throw (send : SendOracle)
    (fileExists : String → Bool) (a : Action) (m msg : String)
    (hm : methodOf a.type = some m) (hsend : send m a = Except.error msg) :
    replayActionServer send fileExists a = ([Ev.call m a], errEntry a msg) := by
  unfold methodOf at hm
  split at hm
  · have hm' : m = "navigate" := by simpa using hm.symm
    subst hm'
    rename_i heq
    simp [replayActionServer, heq, hsend]
  · have hm' : m = "click" := by simpa using hm.symm
    subst hm'
    rename_i heq
    simp [replayActionServer, heq, hsend]
  · have hm' : m = "type" := by simpa using hm.symm
    subst hm'
    rename_i heq
    simp [replayActionServer, heq, hsend]
  · have hm' : m = "select_option" := by simpa using hm.symm
    subst hm'
    rename_i heq
    simp [replayActionServer, heq, hsend]
  · have hm' : m = "press_key" := by simpa using hm.symm
    subst hm'
    rename_i heq
    simp [replayActionServer, heq, hsend]
  · simp at hm

/-- C2: replaying a persisted recording with N actions returns a results
sequence of exactly N entries, one per recorded action in capture order
(the entry at each position is the loop body applied to the action at that
position), with actionsExecuted equal to N; an action whose underlying
call throws is reported as the failure entry carrying its error message,
and every subsequent action is still executed and reported, because the
results are the full ordered map of the loop body over the actions.  The
same holds for the extension-side replay. -/
theorem replay_reports_every_action (store : Store) (send : SendOracle)
    (fileExists : String → Bool) (name : String) (r : Recording)
    (hget : lookupKey store (toFilename name) = some r) :
    replayRecordingFromDisk store send fileExists name
      = Except.ok ((replayList (replayActionServer send fileExists) r.actions).1,
          { success := true, recording := name,
            actionsExecuted := r.actions.length,
            results := r.actions.map (fun a => (replayActionServer send fileExists a).2) })
  ∧ (∀ a m msg, methodOf a.type = some m → send m a = Except.error msg →
      (replayActionServer send fileExists a).2 = errEntry a msg)
  ∧ (∀ recs r2, lookupKey recs name = some r2 →
      replayRecording recs send name
        = Except.ok ((replayList (replayActionExt send) r2.actions).1,
            { success := true, recording := name,
              actionsExecuted := r2.actions.length,
              results := r2.actions.map (fun a => (replayActionExt send a).2) })) := by
  refine ⟨?_, ?_, ?_⟩
  · simp [replayRecordingFromDisk, getRecordingFromDisk, hget, replayList_results]
  · intro a m msg hm hsend
    rw [replayActionServer_throw send fileExists a m msg hm hsend]
  · intro recs r2 hget2
    simp [replayRecording, getRecordingByName, hget2, replayList_results]

/-- Witness for C2: the three-action recording replayed against an oracle
that fails the click call yields three entries in order, the click failure
reported, the following action still reported. -/
theorem replay_reports_every_action_witness :
    lookupKey c2Store (toFilename "t1") = some c2Rec
  ∧ (replayRecordingFromDisk c2Store c2Send (fun _ => false) "t1").map
        (fun p => (p.2.actionsExecuted,
          p.2.results.map (fun e => (e.action, e.success, e.error))))
      = Except.ok (3, [("navigate", true, none),
          ("click", false, some "Element not found: #go"), ("type", true, none)]) := by
  constructor
  · rfl
  · rw [(replay_reports_every_action c2Store c2Send (fun _ => false) "t1" c2Rec rfl).1]
    rfl

/-- C6: after each action whose underlying call resolves, the fixed
per-type settle delay is awaited before anything further happens: 1000ms
for navigate, 300ms for click, 100ms for type, select and keypress, and
none for upload; when the underlying call throws, the timeline holds the
call alone with no delay; and the timeline of the whole run puts each
action's events, delay included, strictly before the next action's. -/
theorem replay_settle_delays (send : SendOracle) (fileExists : String → Bool)
    (a : Action) (rest : List Action) (v : Nat) (m msg : String) :
    (a.type = "navigate" → send "navigate" a = Except.ok v →
      (replayActionServer send fileExists a).1 = [Ev.call "navigate" a, Ev.sleep 1000])
  ∧ (a.type = "click" → send "click" a = Except.ok v →
      (replayActionServer send fileExists a).1 = [Ev.call "click" a, Ev.sleep 300])
  ∧ (a.type = "type" → send "type" a = Except.ok v →
      (replayActionServer send fileExists a).1 = [Ev.call "type" a, Ev.sleep 100])
  ∧ (a.type = "select" → send "select_option" a = Except.ok v →
      (replayActionServer send fileExists a).1 = [Ev.call "select_option" a, Ev.sleep 100])
  ∧ (a.type = "keypress" → send "press_key" a = Except.ok v →
      (replayActionServer send fileExists a).1 = [Ev.call "press_key" a, Ev.sleep 100])
  ∧ (a.type = "upload" → ∀ d : Nat, Ev.sleep d ∉ (replayActionServer send fileExists a).1)
  ∧ (methodOf a.type = some m → send m a = Except.error msg →
      (replayActionServer send fileExists a).1 = [Ev.call m a])
  ∧ (replayList (replayActionServer send fileExists) (a :: rest)).1
      = (replayActionServer send fileExists a).1
        ++ (replayList (replayActionServer send fileExists) rest).1 := by
  refine ⟨?_, ?_, ?_, ?_, ?_, ?_, ?_, ?_⟩
  · intro h hs
    simp [replayActionServer, h, hs]
  · intro h hs
    simp [replayActionServer, h, hs]
  · intro h hs
    simp [replayActionServer, h, hs]
  · intro h hs
    simp [replayActionServer, h, hs]
  · intro h hs
    simp [replayActionServer, h, hs]
  · intro h d
    simp only [replayActionServer, h]
    split
    · rcases hs : send "upload_file" a with m | w <;> simp [hs]
    · simp
  · intro hm hs
    rw [replayActionServer_throw send fileExists a m msg hm hs]
  · exact replayList_trace _ a rest

/-- Witness for C6: a navigate action whose call resolves is followed by
the 1000ms delay, and an upload action awaits no delay. -/
theorem replay_settle_delays_witness :
    (replayActionServer (fun _ _ => Except.ok 0) (fun _ => false)
        { type := "navigate", url := some "https://x" }).1
      = [Ev.call "navigate" { type := "navigate", url := some "https://x" }, Ev.sleep 1000]
  ∧ Ev.sleep 1000 ∉ (replayActionServer (fun _ _ => Except.ok 0) (fun _ => false)
        { type := "upload", fileName := some "f.txt" }).1 :=
  ⟨(replay_settle_delays (fun _ _ => Except.ok 0) (fun _ => false)
      { type := "navigate", url := some "https://x" } [] 0 "" "").1 rfl rfl,
   (replay_settle_delays (fun _ _ => Except.ok 0) (fun _ => false)
      { type := "upload", fileName := some "f.txt" } [] 0 "" "").2.2.2.2.2.1 rfl 1000⟩

/-- An unrecognized action type takes the default branch of the server
replay switch. -/
theorem replayActionServer_default (send : SendOracle)
    (fileExists : String → Bool) (a : Action)
    (hm : methodOf a.type = none) (hu : a.type ≠ "upload") :
    replayActionServer send fileExists a
      = ([], okEntry a (RValue.skipped ("Unknown action type: " ++ a.type))) := by
  unfold replayActionServer
  split
  · rename_i heq
    rw [heq] at hm
    exact absurd hm (by decide)
  · rename_i heq
    rw [heq] at hm
    exact absurd hm (by decide)
  · rename_i heq
    rw [heq] at hm
    exact absurd hm (by decide)
  · rename_i heq
    rw [heq] at hm
    exact absurd hm (by decide)
  · rename_i heq
    rw [heq] at hm
    exact absurd hm (by decide)
  · rename_i heq
    exact absurd heq hu
  · rfl

/-- An unrecognized action type takes the default branch of the extension
replay switch. -/
theorem replayActionExt_default (send : SendOracle) (a : Action)
    (hm : methodOf a.type = none) (hu : a.type ≠ "upload") :
    replayActionExt send a
      = ([], okEntry a (RValue.skipped ("Unknown action type: " ++ a.type))) := by
  unfold replayActionExt
  split
  · rename_i heq
    rw [heq] at hm
    exact absurd hm (by decide)
  · rename_i heq
    rw [heq] at hm
    exact absurd hm (by decide)
  · rename_i heq
    rw [heq] at hm
    exact absurd hm (by decide)
  · rename_i heq
    rw [heq] at hm
    exact absurd hm (by decide)
  · rename_i heq
    rw [heq] at hm
    exact absurd hm (by decide)
  · rename_i heq
    exact absurd heq hu
  · rfl

/-- C9: a skipped outcome (unrecognized action type, or an upload with no
usable file path) is reported with success true and a nil error, exactly
as a real success is, so only the skipped value nested inside the entry
result tells the two apart; and every skipped entry is counted, since
actionsExecuted is the length of the results sequence. -/
theorem replay_skipped_reported_success (send : SendOracle)
    (fileExists : String → Bool) (a : Action) (v : RValue) :
    (methodOf a.type = none → a.type ≠ "upload" →
      (replayActionServer send fileExists a).2
        = okEntry a (RValue.skipped ("Unknown action type: " ++ a.type)))
  ∧ (a.type = "upload" → uploadPathUsable fileExists a = false →
      (replayActionServer send fileExists a).2
        = okEntry a (RValue.skipped (uploadSkipReason a)))
  ∧ (a.type = "upload" →
      (replayActionExt send a).2
        = okEntry a (RValue.skipped "File uploads require file path parameter"))
  ∧ (methodOf a.type = none → a.type ≠ "upload" →
      (replayActionExt send a).2
        = okEntry a (RValue.skipped ("Unknown action type: " ++ a.type)))
  ∧ (okEntry a v).success = true
  ∧ (okEntry a v).error = none
  ∧ (∀ msg, (errEntry a msg).success = false)
  ∧ (∀ store nm tr out,
      replayRecordingFromDisk store send fileExists nm = Except.ok (tr, out) →
      out.actionsExecuted = out.results.length) := by
  refine ⟨?_, ?_, ?_, ?_, rfl, rfl, fun _ => rfl, ?_⟩
  · intro hm hu
    rw [replayActionServer_default send fileExists a hm hu]
  · intro h hp
    simp [replayActionServer, h, hp]
  · intro h
    simp [replayActionExt, h]
  · intro hm hu
    rw [replayActionExt_default send a hm hu]
  · intro store nm tr out h
    unfold replayRecordingFromDisk at h
    revert h
    cases hg : getRecordingFromDisk store nm with
    | error e =>
        intro h
        simp at h
    | ok r =>
        intro h
        simp only [Except.ok.injEq, Prod.mk.injEq] at h
        obtain ⟨h1, h2⟩ := h
        rw [← h2]

/-- Witness for C9: an unrecognized action and a path-less upload both
come back with success true and a skipped result. -/
theorem replay_skipped_reported_success_witness :
    (replayActionServer (fun _ _ => Except.ok 0) (fun _ => false)
        { type := "frobnicate" }).2
      = okEntry { type := "frobnicate" }
          (RValue.skipped ("Unknown action type: " ++ "frobnicate"))
  ∧ (replayActionServer (fun _ _ => Except.ok 0) (fun _ => false)
        { type := "upload", fileName := some "f.txt" }).2
      = okEntry { type := "upload", fileName := some "f.txt" }
          (RValue.skipped (uploadSkipReason { type := "upload", fileName := some "f.txt" })) :=
  ⟨(replay_skipped_reported_success (fun _ _ => Except.ok 0) (fun _ => false)
      { type := "frobnicate" } (RValue.ext 0)).1 (by decide) (by decide),
   (replay_skipped_reported_success (fun _ _ => Except.ok 0) (fun _ => false)
      { type := "upload", fileName := some "f.txt" } (RValue.ext 0)).2.1 rfl rfl⟩

/-- sanitizeName is the identity on names made of safe characters. -/
theorem sanitizeName_safe (s : String) (h : s.data.all isSafeChar = true) :
    sanitizeName s = s := by
  unfold sanitizeName
  have h' : ∀ c ∈ s.data, (if isSafeChar c then c else '_') = c := by
    intro c hc
    simp [List.all_eq_true.mp h c hc]
  have h2 : s.data.map (fun c => if isSafeChar c then c else '_') = s.data.map id :=
    List.map_congr_left h'
  rw [h2, List.map_id]

/-- Overwriting the value under one key leaves every other key unchanged. -/
theorem find_map_overwrite (ps : Store) (k k' : String) (v : Recording)
    (h : k ≠ k') :
    (ps.map (fun p => if p.1 == k then (k, v) else p)).find? (fun p => p.1 == k')
      = ps.find? (fun p => p.1 == k') := by
  induction ps with
  | nil => rfl
  | cons p ps ih =>
      rw [List.map_cons]
      by_cases hp : p.1 = k
      · have hone : (if (p.1 == k) = true then (k, v) else p) = (k, v) := by
          simp [hp]
        rw [hone]
        have hb1 : (((k, v) : String × Recording).1 == k') = false :=
          beq_eq_false_iff_ne.mpr h
        have hb2 : (p.1 == k') = false := by
          rw [hp]
          exact beq_eq_false_iff_ne.mpr h
        simp only [List.find?_cons, hb1, hb2]
        exact ih
      · have hone : (if (p.1 == k) = true then (k, v) else p) = p := by
          simp [hp]
        rw [hone]
        by_cases hpk' : p.1 = k'
        · have hb : (p.1 == k') = true := by simp [hpk']
          simp only [List.find?_cons, hb]
        · have hb : (p.1 == k') = false := beq_eq_false_iff_ne.mpr hpk'
          simp only [List.find?_cons, hb]
          exact ih

/-- Writing under one key does not change what is read under another. -/
theorem lookupKey_setKey_ne (store : Store) (k k' : String) (v : Recording)
    (h : k ≠ k') : lookupKey (setKey store k v) k' = lookupKey store k' := by
  unfold lookupKey setKey
  by_cases hx : store.any (fun p => p.1 == k) = true
  · rw [if_pos hx, find_map_overwrite store k k' v h]
  · rw [if_neg hx]
    have hkk : ((k, v).1 == k') = false := beq_eq_false_iff_ne.mpr h
    simp [List.find?_cons, hkk]

/-- C4 is false as stated: two distinct names can share a storage key,
because every unsafe character collapses to the same underscore. -/
theorem toFilename_collision_counterexample :
    toFilename "a b" = toFilename "a_b" ∧ "a b" ≠ "a_b" := by
  constructor
  · rfl
  · decide

/-- C4 (amended): for two distinct recording names that are filesystem
safe (made only of characters in the class a-zA-Z0-9-_, on which the
transform is the identity), the storage keys are distinct, and saving a
recording under one of the names leaves what is stored under the other
name unchanged.  For names outside that class the transform can collide
(see the counterexample), and the spec itself requires names to be
filesystem-safe identifiers. -/
theorem toFilename_injective_on_safe (n1 n2 : String)
    (h1 : n1.data.all isSafeChar = true) (h2 : n2.data.all isSafeChar = true)
    (hne : n1 ≠ n2) :
    toFilename n1 ≠ toFilename n2
  ∧ (∀ store now acts u,
      lookupKey (saveRecordingToDisk store now n1 acts u).1 (toFilename n2)
        = lookupKey store (toFilename n2)) := by
  have hinj : toFilename n1 ≠ toFilename n2 := by
    intro he
    unfold toFilename at he
    rw [sanitizeName_safe n1 h1, sanitizeName_safe n2 h2] at he
    have hd := congrArg String.data he
    simp only [String.data_append] at hd
    exact hne (String.ext (List.append_cancel_right hd))
  refine ⟨hinj, ?_⟩
  intro store now acts u
  exact lookupKey_setKey_ne store (toFilename n1) (toFilename n2) _ hinj

/-- Witness for C4 (amended) on two concrete safe names. -/
theorem toFilename_injective_on_safe_witness :
    toFilename "t1" ≠ toFilename "t2"
  ∧ lookupKey (saveRecordingToDisk [] 0 "t1" [] none).1 (toFilename "t2")
      = lookupKey [] (toFilename "t2") :=
  ⟨(toFilename_injective_on_safe "t1" "t2" (by decide) (by decide) (by decide)).1,
   (toFilename_injective_on_safe "t1" "t2" (by decide) (by decide) (by decide)).2 [] 0 [] none⟩

/-- C7: saving with an empty buffer fails with the empty-recording error,
thrown before anything is loaded or written, so the persisted store, the
buffer and the saved flag are all exactly as before. -/
theorem save_empty_recording_fails (st : RecState) (now : Nat) (name : String)
    (h : st.currentRecording = []) :
    (saveRecording st now name).2 = Except.error "No actions to save"
  ∧ (saveRecording st now name).1 = st := by
  constructor
  · simp [saveRecording, h]
  · simp [saveRecording, h]

/-- Witness for C7 at a concrete empty-buffer state with a recording
already stored under the target name. -/
theorem save_empty_recording_fails_witness :
    (saveRecording c7State 0 "t1").2 = Except.error "No actions to save"
  ∧ (saveRecording c7State 0 "t1").1 = c7State :=
  save_empty_recording_fails c7State 0 "t1" rfl

/-- C8: toggling control off while a tab is targeted clears the target;
every target-requiring command then fails with the no-target error; no
event other than a connect can make the target non-nil again; and a
connect with the session enabled and an existing tab sets it. -/
theorem disable_clears_target (st : BgState) (tabs : List Tab)
    (hen : st.sessionEnabled = true) :
    ((toggleSession st).1.sessionEnabled = false
      ∧ (toggleSession st).1.connectedTabId = none)
  ∧ (∀ st2 : BgState, st2.connectedTabId = none →
      ∀ url sel txt,
        navigate st2 url = Except.error "No tab connected. Use connect_tab first."
        ∧ click st2 sel = Except.error "No tab connected. Use connect_tab first."
        ∧ typeText st2 sel txt = Except.error "No tab connected. Use connect_tab first.")
  ∧ (∀ st2 : BgState, st2.connectedTabId = none →
      ∀ e : BgEvent, (∀ t, e ≠ BgEvent.connect t) →
        (bgStep tabs st2 e).connectedTabId = none)
  ∧ (∀ st2 : BgState, st2.sessionEnabled = true →
      ∀ t tab, tabs.find? (fun x => x.id == t) = some tab →
        (connectTab st2 tabs t).1.connectedTabId = some t) := by
  refine ⟨?_, ?_, ?_, ?_⟩
  · constructor
    · simp [toggleSession, hen]
    · simp [toggleSession, hen]
  · intro st2 hc url sel txt
    refine ⟨?_, ?_, ?_⟩
    · simp [navigate, requireConnectedTab, hc]
    · simp [click, requireConnectedTab, hc]
    · simp [typeText, requireConnectedTab, hc]
  · intro st2 hc e hne
    cases e with
    | toggle =>
        simp only [bgStep, toggleSession]
        split
        · exact hc
        · rfl
    | connect t => exact absurd rfl (hne t)
    | disconnect => rfl
    | tabClose tid =>
        cases tid with
        | none => simp [bgStep, hc]
        | some t => simp [bgStep, hc]
    | tabRemoved t => simp [bgStep, hc]
    | otherCommand => exact hc
  · intro st2 hs t tab hf
    simp [connectTab, hs, hf]

/-- Witness for C8 at a concrete enabled state targeting tab 5. -/
theorem disable_clears_target_witness :
    (toggleSession c8State).1.sessionEnabled = false
  ∧ (toggleSession c8State).1.connectedTabId = none :=
  (disable_clears_target c8State [] rfl).1

/-- C10: with control disabled, listing tabs succeeds with the empty list
rather than raising the control-disabled error, while connecting to a tab
is what fails with that error (and changes nothing). -/
theorem list_tabs_disabled_empty (st : BgState) (tabs : List Tab) (tabId : Nat)
    (h : st.sessionEnabled = false) :
    listTabs st tabs = Except.ok []
  ∧ (connectTab st tabs tabId).2
      = Except.error "Browser control is disabled. Enable it via the extension icon."
  ∧ (connectTab st tabs tabId).1 = st := by
  refine ⟨?_, ?_, ?_⟩
  · simp [listTabs, h]
  · simp [connectTab, h]
  · simp [connectTab, h]

/-- Witness for C10 at a concrete disabled state with one tab present. -/
theorem list_tabs_disabled_empty_witness :
    listTabs { sessionEnabled := false, connectedTabId := none } [c10Tab] = Except.ok []
  ∧ (connectTab { sessionEnabled := false, connectedTabId := none } [c10Tab] 1).2
      = Except.error "Browser control is disabled. Enable it via the extension icon." :=
  ⟨(list_tabs_disabled_empty _ [c10Tab] 1 rfl).1,
   (list_tabs_disabled_empty _ [c10Tab] 1 rfl).2.1⟩

theorem append_left_ne_empty (a b : String) (ha : a ≠ "") : a ++ b ≠ "" := by
  intro h
  apply ha
  have hd := congrArg String.data h
  rw [String.data_append] at hd
  have h2 : a.data = [] := (List.append_eq_nil.mp hd).1
  exact String.ext (by rw [h2])

theorem append_right_ne_empty (a b : String) (hb : b ≠ "") : a ++ b ≠ "" := by
  intro h
  apply hb
  have hd := congrArg String.data h
  rw [String.data_append] at hd
  have h2 : b.data = [] := (List.append_eq_nil.mp hd).2
  exact String.ext (by rw [h2])

theorem lowerStr_ne_empty (s : String) (h : s ≠ "") : lowerStr s ≠ "" := by
  unfold lowerStr
  intro he
  apply h
  have hd := congrArg String.data he
  simp only [List.map_eq_nil_iff] at hd
  exact String.ext (by rw [hd])

theorem foldl_append_ne_empty (as : List String) (a : String) (ha : a ≠ "") :
    as.foldl (fun r s => r ++ s) a ≠ "" := by
  induction as generalizing a with
  | nil => simpa using ha
  | cons b bs ih => exact ih (a ++ b) (append_left_ne_empty a b ha)

theorem join_cons_ne_empty (x : String) (xs : List String) (hx : x ≠ "") :
    String.join (x :: xs) ≠ "" := by
  show xs.foldl (fun r s => r ++ s) ("" ++ x) ≠ ""
  exact foldl_append_ne_empty xs ("" ++ x) (append_right_ne_empty "" x hx)

theorem joinSep_ne_empty (sep : String) (l : List String) (hne : l ≠ [])
    (h : ∀ s ∈ l, s ≠ "") : joinSep sep l ≠ "" := by
  match l with
  | [] => exact absurd rfl hne
  | [s] => simpa [joinSep] using h s (by simp)
  | s :: t :: rest =>
      show s ++ sep ++ joinSep sep (t :: rest) ≠ ""
      exact append_left_ne_empty (s ++ sep) _
        (append_left_ne_empty s sep (h s (by simp)))

/-- Every element is among the nodes of its own subtree. -/
theorem self_mem_allNodes (d : Dom) : d ∈ d.allNodes := by
  cases d with
  | node t i c a x ch =>
      rw [Dom.allNodes]
      exact List.mem_cons_self _ _

/-- The subtree nodes of a child are among the nodes of the parent. -/
theorem mem_allNodes_of_child (t i cl : String) (a : List (String × String))
    (x : String) (ch : List Dom) (c : Dom) (hc : c ∈ ch) (y : Dom)
    (hy : y ∈ c.allNodes) : y ∈ (Dom.node t i cl a x ch).allNodes := by
  rw [Dom.allNodes]
  apply List.mem_cons_of_mem
  apply List.mem_flatten.mpr
  refine ⟨c.allNodes, ?_, hy⟩
  exact List.mem_map.mpr ⟨⟨c, hc⟩, List.mem_attach _ _, rfl⟩

/-- The element a valid path references is a node of the document. -/
theorem getNode_mem_allNodes (q : List Nat) :
    ∀ (doc cur : Dom), getNode doc q = some cur → cur ∈ doc.allNodes := by
  induction q with
  | nil =>
      intro doc cur h
      have : doc = cur := by simpa [getNode] using h
      rw [← this]
      exact self_mem_allNodes doc
  | cons idx p ih =>
      intro doc cur h
      cases doc with
      | node t i cl a x ch =>
          simp only [getNode] at h
          cases hc : ch[idx]? with
          | none => rw [hc] at h; exact absurd h (by simp)
          | some child =>
              rw [hc] at h
              exact mem_allNodes_of_child t i cl a x ch child
                (List.getElem?_mem hc) cur (ih child cur h)

/-- Strategy 1 only ever returns an id selector, which is non-empty. -/
theorem strat1_ne_empty (esc : String → String) (doc el : Dom) (s : String)
    (h : strat1 esc doc el = some s) : s ≠ "" := by
  unfold strat1 at h
  split at h
  · split at h
    · injection h with h'
      rw [← h']
      exact append_left_ne_empty "#" _ (by decide)
    · exact Option.noConfusion h
  · exact Option.noConfusion h

/-- The take of a non-empty list with a positive count is non-empty. -/
theorem take_ne_nil_of_ne_nil (l : List String) (n : Nat) (hl : l ≠ [])
    (hn : n ≠ 0) : l.take n ≠ [] := by
  cases l with
  | nil => exact absurd rfl hl
  | cons a as =>
      cases n with
      | zero => exact absurd rfl hn
      | succ m => simp

/-- Strategy 2 only ever returns an attribute selector, non-empty. -/
theorem strat2_ne_empty (esc : String → String) (doc el : Dom) (s : String)
    (h : strat2 esc doc el = some s) : s ≠ "" := by
  unfold strat2 at h
  obtain ⟨attr, -, hf⟩ := List.exists_of_findSome?_eq_some h
  split at hf
  · split at hf
    · injection hf with h'
      rw [← h']
      exact append_right_ne_empty _ "\"]" (by decide)
    · exact Option.noConfusion hf
  · exact Option.noConfusion hf

/-- A joined class selector over a non-empty class list is non-empty. -/
theorem join_dot_map_ne_empty (esc : String → String) (l : List String)
    (hl : l ≠ []) : String.join (l.map (fun c => "." ++ esc c)) ≠ "" := by
  cases l with
  | nil => exact absurd rfl hl
  | cons c rest =>
      rw [List.map_cons]
      exact join_cons_ne_empty _ _ (append_left_ne_empty "." _ (by decide))

/-- Strategy 3 only ever returns a class selector, non-empty. -/
theorem strat3_ne_empty (esc : String → String) (doc el : Dom) (s : String)
    (h : strat3 esc doc el = some s) : s ≠ "" := by
  simp only [strat3] at h
  split at h
  · split at h
    · rename_i hlen
      split at h
      · rename_i s0 hfs
        injection h with h'
        rw [← h']
        obtain ⟨c, -, hf⟩ := List.exists_of_findSome?_eq_some hfs
        split at hf
        · injection hf with h2
          rw [← h2]
          exact append_left_ne_empty "." _ (by decide)
        · exact Option.noConfusion hf
      · split at h
        · injection h with h'
          rw [← h']
          apply join_dot_map_ne_empty
          refine take_ne_nil_of_ne_nil _ 3 ?_ (by decide)
          intro hnil
          rw [hnil] at hlen
          simp at hlen
        · exact Option.noConfusion h
    · exact Option.noConfusion h
  · exact Option.noConfusion h

/-- The placeholder fallback only ever returns a non-empty selector. -/
theorem strat4placeholder_ne_empty (esc : String → String) (doc el : Dom)
    (s : String) (h : strat4placeholder esc doc el = some s) : s ≠ "" := by
  unfold strat4placeholder at h
  split at h
  · split at h
    · injection h with h'
      rw [← h']
      exact append_right_ne_empty _ "\"]" (by decide)
    · exact Option.noConfusion h
  · exact Option.noConfusion h

/-- Strategy 4 only ever returns a tag-qualified attribute selector,
non-empty. -/
theorem strat4_ne_empty (esc : String → String) (doc el : Dom) (s : String)
    (h : strat4 esc doc el = some s) : s ≠ "" := by
  simp only [strat4] at h
  split at h
  · split at h
    · split at h
      · injection h with h'
        rw [← h']
        exact append_right_ne_empty _ "\"]" (by decide)
      · exact strat4placeholder_ne_empty esc doc el s h
    · exact strat4placeholder_ne_empty esc doc el s h
  · split at h
    · split at h
      · split at h
        · split at h
          · injection h with h'
            rw [← h']
            exact append_right_ne_empty _ "\"]" (by decide)
          · exact Option.noConfusion h
        · exact Option.noConfusion h
      · exact Option.noConfusion h
    · exact Option.noConfusion h

/-- Every component the strategy-5 walk produces is non-empty, in a
document whose elements all have non-empty tags. -/
theorem pathCompsUp_all_ne (esc : String → String) (doc : Dom)
    (hw : TagsNonEmpty doc) :
    ∀ (fuel : Nat) (q : List Nat) (s : String),
      s ∈ pathCompsUp esc doc fuel q → s ≠ "" := by
  intro fuel
  induction fuel with
  | zero =>
      intro q s hs
      simp [pathCompsUp] at hs
  | succ n ih =>
      intro q s hs
      cases q with
      | nil => simp [pathCompsUp] at hs
      | cons idx p =>
          simp only [pathCompsUp] at hs
          revert hs
          cases hg : getNode doc (idx :: p) with
          | none =>
              intro hs
              simp at hs
          | some cur =>
              intro hs
              simp only [] at hs
              have htag : cur.tagName ≠ "" :=
                hw cur (getNode_mem_allNodes (idx :: p) doc cur hg)
              by_cases hid : (cur.idOf != "" && !startsDigit cur.idOf) = true
              · rw [if_pos hid] at hs
                simp only [List.mem_singleton] at hs
                rw [hs]
                exact append_left_ne_empty "#" _ (by decide)
              · rw [if_neg hid] at hs
                simp only [List.mem_cons] at hs
                rcases hs with hs | hs
                · rw [hs]
                  cases hpar : getNode doc ((idx :: p).dropLast) with
                  | some par =>
                      repeat' split
                      all_goals
                        first
                          | exact append_right_ne_empty _ ")" (by decide)
                          | exact lowerStr_ne_empty _ htag
                  | none => exact lowerStr_ne_empty _ htag
                · exact ih ((idx :: p).dropLast) s hs

/-- The strategy-5 positional path of a non-body element is non-empty. -/
theorem strat5_ne_empty (esc : String → String) (doc : Dom) (elPath : List Nat)
    (el : Dom) (hw : TagsNonEmpty doc) (hget : getNode doc elPath = some el)
    (hne : elPath ≠ []) : strat5 esc doc elPath ≠ "" := by
  unfold strat5
  apply joinSep_ne_empty
  · rw [ne_eq, List.reverse_eq_nil_iff]
    cases elPath with
    | nil => exact absurd rfl hne
    | cons idx p =>
        show pathCompsUp esc doc (4 + 1) (idx :: p) ≠ []
        simp only [pathCompsUp, hget]
        split
        · simp
        · simp
  · intro s hs
    exact pathCompsUp_all_ne esc doc hw 5 elPath s (List.mem_reverse.mp hs)

/-- C5 is false as stated: generateSelector invoked on the document body
itself (a click on the page background) with no id, class or attribute
runs the positional fallback with an empty path and returns the empty
string. -/
theorem generateSelector_empty_counterexample :
    generateSelector (fun s => s) c5Doc [] = ""
  ∧ getNode c5Doc [] = some c5Doc :=
  ⟨rfl, rfl⟩

/-- C5 (amended): for every escape function, every document whose
elements carry non-empty tag names, and every element of the document
other than the body root itself, generateSelector returns a non-empty
selector string; on the body root the positional fallback loop exits at
once and the empty string is returned (see the counterexample). -/
theorem generateSelector_nonempty (esc : String → String) (doc : Dom)
    (elPath : List Nat) (el : Dom) (hw : TagsNonEmpty doc)
    (hget : getNode doc elPath = some el) (hne : elPath ≠ []) :
    generateSelector esc doc elPath ≠ "" := by
  unfold generateSelector
  simp only [hget]
  cases h1 : strat1 esc doc el with
  | some s => exact strat1_ne_empty esc doc el s h1
  | none =>
      cases h2 : strat2 esc doc el with
      | some s => exact strat2_ne_empty esc doc el s h2
      | none =>
          cases h3 : strat3 esc doc el with
          | some s => exact strat3_ne_empty esc doc el s h3
          | none =>
              cases h4 : strat4 esc doc el with
              | some s => exact strat4_ne_empty esc doc el s h4
              | none => exact strat5_ne_empty esc doc elPath el hw hget hne

/-- Unfolding membership in the node list of a subtree one level. -/
theorem mem_allNodes_elim (t i c : String) (a : List (String × String))
    (x : String) (ch : List Dom) (d : Dom)
    (hd : d ∈ (Dom.node t i c a x ch).allNodes) :
    d = Dom.node t i c a x ch ∨ ∃ cc ∈ ch, d ∈ cc.allNodes := by
  rw [Dom.allNodes] at hd
  rcases List.mem_cons.mp hd with h | h
  · exact Or.inl h
  · right
    rcases List.mem_flatten.mp h with ⟨l, hl, hdl⟩
    rcases List.mem_map.mp hl with ⟨⟨cc, hcc⟩, -, rfl⟩
    exact ⟨cc, hcc, hdl⟩

/-- Witness for C5 (amended): the div child of the example body gets a
non-empty selector. -/
theorem generateSelector_nonempty_witness :
    generateSelector (fun s => s) c5Doc [0] ≠ "" := by
  apply generateSelector_nonempty (fun s => s) c5Doc [0]
    (Dom.node "DIV" "" "" [] "hi" [])
  · intro d hd
    rcases mem_allNodes_elim "BODY" "" "" [] ""
        [Dom.node "DIV" "" "" [] "hi" []] d hd with h | ⟨cc, hcc, hd2⟩
    · rw [h]
      decide
    · have hcc' := List.mem_singleton.mp hcc
      rw [hcc'] at hd2
      rcases mem_allNodes_elim "DIV" "" "" [] "hi" [] d hd2 with h2 | ⟨cc2, hcc2, -⟩
      · rw [h2]
        decide
      · simp at hcc2
  · rfl
  · decide

end Bronco
